import Mathlib

/-!
Shallow embedding of the VibeSDK agent orchestration engine
(`AgentCore.ts`, `AgenticProjectBuilder.ts`, `ICodingAgent.ts`,
`behaviors/agentic.ts`) and proofs about its control flow.

Machine numbers are modelled as `Nat`/`ℚ`; JSON payloads are carried as
opaque strings; asynchronous methods are modelled as pure state
transformers that additionally return the list of notification events
they emit.
-/

namespace Vibe

/-- Roles of conversation messages (`role` field on `Message`). -/
inductive Role
  | system
  | user
  | assistant
  | tool
deriving DecidableEq, Repr

/-- The `function` sub-object of a wire-format tool call:
`{ name, arguments }` with `arguments` a JSON string. -/
structure FunctionCall where
  name : String
  arguments : String
deriving DecidableEq, Repr

/-- Wire-format tool call as it appears in messages and stream chunks:
`{ id, type: 'function', function: { name, arguments } }`. -/
structure RawToolCall where
  id : String
  function : FunctionCall
deriving DecidableEq, Repr

/-- Conversation message (`Message` in `inferutils/common`): role, string
content, optional `tool_calls` array and optional `tool_call_id`. -/
structure Message where
  role : Role
  content : String
  tool_calls : List RawToolCall := []
  tool_call_id : Option String := none
deriving DecidableEq, Repr

/-- Parsed tool call (`ToolCall` in `tools/types`): id, name and the
parameter mapping. The JSON parameter object is kept in its serialized
form, so `JSON.parse` / `JSON.stringify` round-trips are the identity. -/
structure ToolCall where
  id : String
  name : String
  parameters : String
deriving DecidableEq, Repr

/-- Model of `estimateTokens` from `ICodingAgent.ts`: `Math.ceil(text.length / 4)`. -/
def estimateTokens (text : String) : Nat :=
  (text.length + 3) / 4

/-- Loop body of `truncateMessages`: walks the messages from most recent
to oldest (`rev` is the reversed message list), accumulating the running
token total and prepending kept messages onto `result`, stopping as soon
as the limit would be exceeded while `result` is non-empty. -/
def truncGo (maxTokens : Nat) : List Message → Nat → List Message → List Message
  | [], _, result => result
  | msg :: rest, totalTokens, result =>
    let tokens := estimateTokens msg.content
    if totalTokens + tokens > maxTokens ∧ result.length > 0 then
      result
    else
      truncGo maxTokens rest (totalTokens + tokens) (msg :: result)

/-- Model of `truncateMessages` from `ICodingAgent.ts`: keep the most recent
messages whose estimated token counts fit within `maxTokens`, always
keeping at least the single most recent message. -/
def truncateMessages (messages : List Message) (maxTokens : Nat) : List Message :=
  truncGo maxTokens messages.reverse 0 []

/-- JS `String.prototype.toLowerCase`, modelled character-wise. -/
def jsToLowerCase (s : String) : String :=
  String.mk (s.data.map Char.toLower)

/-- JS `String.prototype.trim`, modelled character-wise. -/
def jsTrim (s : String) : String :=
  String.mk (((s.data.dropWhile Char.isWhitespace).reverse.dropWhile Char.isWhitespace).reverse)

/-- JS `String.prototype.slice(n)`, modelled character-wise. -/
def jsSlice (s : String) (n : Nat) : String :=
  String.mk (s.data.drop n)

/-- Whether `needle` occurs as a contiguous infix of the character list. -/
def containsSubList (needle : List Char) : List Char → Bool
  | [] => needle.isEmpty
  | c :: t => needle.isPrefixOf (c :: t) || containsSubList needle t

/-- JS `String.prototype.includes`. -/
def jsIncludes (s sub : String) : Bool :=
  containsSubList sub.data s.data

/-- JS `String.prototype.startsWith`. -/
def jsStartsWith (s pre : String) : Bool :=
  pre.data.isPrefixOf s.data

/-- Normalized stream chunk (`StreamChunk` in `ICodingAgent.ts`):
content token, tool-call batch, or completion signal. -/
inductive StreamChunk
  | content (s : String)
  | tool_call (tool_calls : List RawToolCall)
  | complete
deriving DecidableEq, Repr

/-- Response classification produced by `streamInference`
(`StreamResponse` in `AgenticProjectBuilder.ts`). -/
inductive StreamResponse
  | complete (content : String)
  | tool_calls (content : String) (toolCalls : List ToolCall)
  | error (e : String)
deriving DecidableEq, Repr

/-- A tool available to the loop (`ToolDefinition`): a name and an
executor from the serialized parameters to either a serialized result or
a thrown error message. -/
structure ToolDefinition where
  name : String
  execute : String → Except String String

/-- One entry of the `results` array built by `executeToolCalls`: either
the tool's returned value or the `{ error: ... }` object pushed when the
tool is missing or its execution throws. -/
inductive ToolOutcome
  | ok (value : String)
  | err (message : String)
deriving DecidableEq, Repr

/-- Model of `executeToolCalls` from `AgenticProjectBuilder.ts`: executes the
batch sequentially; a missing tool pushes `{ error: "Tool not found: <name>" }`
and continues; a throwing tool pushes `{ error: <message> }` and
continues; exactly one outcome is pushed per call, in call order. The UI
renderer and `onToolComplete` callbacks are notifications only and do
not affect the results array, so they are omitted here. -/
def executeToolCalls (toolCalls : List ToolCall) (availableTools : List ToolDefinition) :
    List ToolOutcome :=
  toolCalls.map fun toolCall =>
    match availableTools.find? (fun t => t.name == toolCall.name) with
    | none => ToolOutcome.err ("Tool not found: " ++ toolCall.name)
    | some tool =>
      match tool.execute toolCall.parameters with
      | .ok result => ToolOutcome.ok result
      | .error e => ToolOutcome.err e

/-- Message content of a pushed tool result:
`typeof result === 'string' ? result : JSON.stringify(result)`; the
error object serializes to `{"error":"<message>"}`. -/
def renderOutcome : ToolOutcome → String
  | .ok value => value
  | .err message => "\x7b\"error\":\"" ++ message ++ "\"\x7d"

/-- The assistant message appended ahead of the tool results in
`runInferenceWithTools`, carrying the batch's tool-call metadata. -/
def assistantToolCallMessage (content : String) (toolCalls : List ToolCall) : Message :=
  { role := Role.assistant
    content := content
    tool_calls := toolCalls.map fun tc => ⟨tc.id, ⟨tc.name, tc.parameters⟩⟩
    tool_call_id := none }

/-- Index-tracking form of
`toolResults.map((result, idx) => ({role:'tool', tool_call_id: toolCalls[idx].id, ...}))`. -/
def toolResultMessagesFrom (toolCalls : List ToolCall) : Nat → List ToolOutcome → List Message
  | _, [] => []
  | idx, r :: rs =>
    { role := Role.tool
      content := renderOutcome r
      tool_calls := []
      tool_call_id := (toolCalls.get? idx).map ToolCall.id } ::
    toolResultMessagesFrom toolCalls (idx + 1) rs

/-- The tool-result messages appended after a batch, one per result, the
`idx`-th carrying `toolCalls[idx].id`. -/
def toolResultMessages (toolCalls : List ToolCall) (results : List ToolOutcome) : List Message :=
  toolResultMessagesFrom toolCalls 0 results

/-- The conversation update performed for a `tool_calls` response: the
assistant message followed by one tool message per result, appended to
the current history before the next model turn. -/
def nextMessages (messages : List Message) (content : String) (toolCalls : List ToolCall)
    (tools : List ToolDefinition) : List Message :=
  messages ++ [assistantToolCallMessage content toolCalls] ++
    toolResultMessages toolCalls (executeToolCalls toolCalls tools)

/-- Model of `MAX_TOOL_ITERATIONS` from `AgentOperationWithTools`. -/
def MAX_TOOL_ITERATIONS : Nat := 50

/-- Outcome of `runInferenceWithTools`: the returned
`InferResponseString` or the message of the thrown `Error`. -/
inductive InferOutcome
  | success (s : String)
  | failure (msg : String)
deriving DecidableEq, Repr

/-- The `while (iteration < MAX_TOOL_ITERATIONS)` loop of
`runInferenceWithTools`. `respond` abstracts one `streamInference` call
on the current history; `timeExceeded` abstracts the per-entry
wall-clock check; `fuel` is `MAX_TOOL_ITERATIONS - iteration`, so fuel 0
is the loop-exit ("max iterations") failure. Returns the outcome and the
final iteration counter (the number of tool-call batches processed). -/
def runLoop (respond : List Message → StreamResponse) (tools : List ToolDefinition)
    (timeExceeded : Nat → Bool) :
    Nat → List Message → Nat → InferOutcome × Nat
  | 0, _, iteration =>
    (InferOutcome.failure
      ("Max tool iterations (" ++ toString MAX_TOOL_ITERATIONS ++ ") exceeded"), iteration)
  | fuel + 1, messages, iteration =>
    if timeExceeded iteration then
      (InferOutcome.failure "Operation timeout exceeded", iteration)
    else
      match respond messages with
      | .complete content => (InferOutcome.success content, iteration)
      | .tool_calls content toolCalls =>
        runLoop respond tools timeExceeded fuel
          (nextMessages messages content toolCalls tools) (iteration + 1)
      | .error e => (InferOutcome.failure ("Inference error: " ++ e), iteration)

/-- Model of `runInferenceWithTools`: run the loop from iteration 0 on the
initial history. -/
def runInferenceWithTools (respond : List Message → StreamResponse)
    (tools : List ToolDefinition) (timeExceeded : Nat → Bool)
    (messages : List Message) : InferOutcome × Nat :=
  runLoop respond tools timeExceeded MAX_TOOL_ITERATIONS messages 0

/-- Model of `parseToolCalls` from `AgentOperationWithTools`: map each raw wire
tool call to a `ToolCall`; `JSON.parse(arguments)` followed by the later
re-serialization is the identity on the serialized parameters. -/
def parseToolCalls (rawToolCalls : List RawToolCall) : List ToolCall :=
  rawToolCalls.map fun tc => ⟨tc.id, tc.function.name, tc.function.arguments⟩

/-- Accumulator of `streamInference`'s chunk loop: `accumulatedContent`,
the last captured `toolCalls` batch, and the `isComplete` flag. -/
structure StreamAcc where
  accumulatedContent : String
  toolCalls : List ToolCall
  isComplete : Bool
deriving DecidableEq, Repr

/-- The `for await (const chunk of stream)` body of `streamInference`:
content chunks accumulate, a tool-call chunk replaces the captured
batch, a completion chunk sets the flag. -/
def processChunks : List StreamChunk → StreamAcc → StreamAcc
  | [], acc => acc
  | c :: rest, acc =>
    match c with
    | .content s =>
      processChunks rest { acc with accumulatedContent := acc.accumulatedContent ++ s }
    | .tool_call raw => processChunks rest { acc with toolCalls := parseToolCalls raw }
    | .complete => processChunks rest { acc with isComplete := true }

/-- Model of `streamInference` response classification: tool calls win; otherwise
completion (explicit signal, recognized marker in the content, or the
default when neither is present). The catch-branch producing an `error`
response corresponds to a throwing transport and is outside this pure
model's inputs. -/
def streamInference (completionSignalName : String) (chunks : List StreamChunk) :
    StreamResponse :=
  let acc := processChunks chunks ⟨"", [], false⟩
  if acc.toolCalls.length > 0 then
    StreamResponse.tool_calls acc.accumulatedContent acc.toolCalls
  else if acc.isComplete || jsIncludes acc.accumulatedContent completionSignalName then
    StreamResponse.complete acc.accumulatedContent
  else
    StreamResponse.complete acc.accumulatedContent

/-- The `continue` filter of `createStreamIterator`:
`line.trim() === '' || !line.startsWith('data:')`. -/
def skipLine (line : String) : Bool :=
  jsTrim line == "" || !(jsStartsWith line "data:")

/-- Model of `line.slice(5).trim()`: the payload of a `data:` frame. -/
def dataPayload (line : String) : String :=
  jsTrim (jsSlice line 5)

/-- Model of `createStreamIterator` from `ICodingAgent.ts`, modelled at the line
level (the `TextDecoder` buffering yields this sequence of complete
lines): skip blank / non-`data:` lines, stop with a single terminal
completion event at the `[DONE]` sentinel, otherwise parse the payload
(`parseFrame` composes `JSON.parse` with the provider-specific
`parseStreamChunk`; `none` covers both a parse failure and an
unrecognized frame, which are skipped). -/
def createStreamIterator (parseFrame : String → Option StreamChunk) :
    List String → List StreamChunk
  | [] => []
  | line :: rest =>
    if skipLine line then createStreamIterator parseFrame rest
    else if dataPayload line = "[DONE]" then [StreamChunk.complete]
    else
      match parseFrame (dataPayload line) with
      | some chunk => chunk :: createStreamIterator parseFrame rest
      | none => createStreamIterator parseFrame rest

/-- Default `retryableErrors` of `withRetry` in
`AgenticProjectBuilder.ts`. -/
def defaultRetryableErrors : List String := ["rate_limit", "timeout", "network_error"]

/-- The retryable-error classifier of `withRetry`:
`retryableErrors.some(e => message.toLowerCase().includes(e))`. -/
def isRetryable (retryableErrors : List String) (message : String) : Bool :=
  retryableErrors.any fun e => jsIncludes (jsToLowerCase message) e

/-- Backoff delay before the next attempt:
`min(baseDelay * 2^attempt, maxDelay)`; the added random jitter (up to
1s) only affects timing, never the returned value, and is omitted. -/
def retryDelay (baseDelay maxDelay attempt : Nat) : Nat :=
  min (baseDelay * 2 ^ attempt) maxDelay

/-- The `for (attempt...)` loop of `withRetry`
(`AgenticProjectBuilder.ts`): `operation` maps the attempt index to that
invocation's outcome; `fuel` is the number of remaining loop runs
(`maxRetries - attempt`). Returns the propagated outcome together with
the number of times the operation was invoked. A success returns it; a
non-retryable error or the last attempt rethrows the error; otherwise
the loop delays and retries. Fuel 0 is the fall-through
`throw lastError!` after the loop. -/
def withRetryGo (operation : Nat → Except String String) (maxRetries : Nat)
    (retryableErrors : List String) :
    Nat → Nat → Option String → Except String String × Nat
  | _, 0, lastError => (Except.error (lastError.getD "undefined"), 0)
  | attempt, fuel + 1, _ =>
    match operation attempt with
    | .ok v => (Except.ok v, 1)
    | .error e =>
      if isRetryable retryableErrors e = false ∨ attempt = maxRetries - 1 then
        (Except.error e, 1)
      else
        let next := withRetryGo operation maxRetries retryableErrors (attempt + 1) fuel (some e)
        (next.1, next.2 + 1)

/-- Model of `withRetry`: run the attempt loop from attempt 0. -/
def withRetry (operation : Nat → Except String String) (maxRetries : Nat)
    (retryableErrors : List String) : Except String String × Nat :=
  withRetryGo operation maxRetries retryableErrors 0 maxRetries none

/-- Model of `withRetry` with its default options: `maxRetries = 3` and the
default retryable substrings. -/
def withRetryDefault (operation : Nat → Except String String) :
    Except String String × Nat :=
  withRetry operation 3 defaultRetryableErrors

/-- Model of `AgentMode` enum from the core types. -/
inductive AgentMode
  | agentic
  | phasic
  | simple
deriving DecidableEq, Repr

/-- Model of `AgentPhase` enum, in declaration (= `Object.values`) order. -/
inductive AgentPhase
  | analysis
  | setup
  | implementation
  | review
  | deployment
deriving DecidableEq, Repr

/-- Model of `GenerationStatus` enum. -/
inductive GenerationStatus
  | initializing
  | processing
  | waiting
  | completed
  | failed
  | terminated
deriving DecidableEq, Repr

/-- Model of `ConversationMessage` from the core types (optional fields beyond
role/content/timestamp elided as they never influence control flow). -/
structure ConversationMessage where
  role : Role
  content : String
  timestamp : Nat
deriving DecidableEq, Repr

/-- Model of `FileState` from the core types. -/
structure FileState where
  path : String
  content : String
  version : Nat
  lastModified : Nat
  status : String
deriving DecidableEq, Repr

/-- Model of `GenerationMetadata`: start time and optional template id (model
configuration carries no control flow and is elided). -/
structure GenerationMetadata where
  startedAt : Nat
  templateId : Option String
deriving DecidableEq, Repr

/-- Model of `GenerationContext` from the core types; the blueprint is carried in
serialized form, the file-state map as an association list. -/
structure GenerationContext where
  sessionId : String
  userId : String
  projectId : String
  status : GenerationStatus
  mode : AgentMode
  phase : AgentPhase
  iteration : Nat
  prompt : String
  blueprint : Option String
  fileStates : List (String × FileState)
  conversationHistory : List ConversationMessage
  metadata : GenerationMetadata
deriving DecidableEq, Repr

/-- Notification events emitted through the `Emitter`
(type tag plus the payload fields the proofs track). -/
inductive AgentEvent
  | blueprintData (blueprint : String)
  | phaseStarted (phase : AgentPhase)
  | phaseCompleted (phase : AgentPhase)
  | phaseFailed (phase : AgentPhase) (error : String)
  | reviewPassed
  | reviewIssuesFound (issues suggestions : List String)
  | streamChunk (chunk : String)
  | userMessage (content : String)
  | completeEvent (totalIterations : Nat)
  | errorEvent (message : String)
  | terminatedEvent (reason : Option String)
deriving DecidableEq, Repr

/-- Model of `AgentSession` from `AgentCore.ts`: id, owned context, and the
`isTerminated` flag. Methods are modelled as pure functions returning
the updated session together with the events the call emits. -/
structure AgentSession where
  id : String
  context : GenerationContext
  isTerminated : Bool
deriving DecidableEq, Repr

/-- Model of `AgentSession.stream`: no-op once terminated, otherwise emits the
chunk (the `STREAM_BUFFER_MS` `setTimeout` only delays delivery). -/
def AgentSession.stream (s : AgentSession) (chunk : String) : AgentSession × List AgentEvent :=
  if s.isTerminated then (s, [])
  else (s, [AgentEvent.streamChunk chunk])

/-- Model of `AgentSession.complete`: no-op once terminated, otherwise sets
COMPLETED and emits the completion event. -/
def AgentSession.complete (s : AgentSession) : AgentSession × List AgentEvent :=
  if s.isTerminated then (s, [])
  else ({ s with context := { s.context with status := GenerationStatus.completed } },
        [AgentEvent.completeEvent s.context.iteration])

/-- Model of `AgentSession.fail`: sets FAILED and emits an error event; the
source performs no termination check here. -/
def AgentSession.fail (s : AgentSession) (message : String) : AgentSession × List AgentEvent :=
  ({ s with context := { s.context with status := GenerationStatus.failed } },
   [AgentEvent.errorEvent message])

/-- Model of `AgentSession.terminate`: sets the terminated flag and emits the
terminal event. -/
def AgentSession.terminate (s : AgentSession) (reason : Option String) :
    AgentSession × List AgentEvent :=
  ({ s with isTerminated := true }, [AgentEvent.terminatedEvent reason])

/-- The `phaseWeights` record of `calculateProgress`. -/
def phaseWeights : AgentPhase → ℚ
  | .analysis => 1 / 10
  | .setup => 2 / 10
  | .implementation => 5 / 10
  | .review => 1 / 10
  | .deployment => 1 / 10

/-- Model of `Object.values(AgentPhase)` in declaration order. -/
def phasesList : List AgentPhase :=
  [.analysis, .setup, .implementation, .review, .deployment]

/-- Model of `calculateProgress`: the summed weights of the phases strictly
before the current one, capped at 0.99 (JS floats modelled as exact
rationals). -/
def AgentSession.calculateProgress (s : AgentSession) : ℚ :=
  min (99 / 100)
    (((phasesList.take (phasesList.indexOf s.context.phase)).map phaseWeights).sum)

/-- Model of `SessionStatus` snapshot returned by `getStatus`. -/
structure SessionStatus where
  sessionId : String
  status : GenerationStatus
  phase : AgentPhase
  mode : AgentMode
  iteration : Nat
  progress : ℚ
  isTerminated : Bool
deriving DecidableEq, Repr

/-- Model of `AgentSession.getStatus`. -/
def AgentSession.getStatus (s : AgentSession) : SessionStatus :=
  { sessionId := s.id
    status := s.context.status
    phase := s.context.phase
    mode := s.context.mode
    iteration := s.context.iteration
    progress := s.calculateProgress
    isTerminated := s.isTerminated }

/-- Model of `ReviewAnalysis` consumed by `handlePostReview` (issues carried as
their messages; confidence as an exact rational). -/
structure ReviewAnalysis where
  issues : List String
  suggestions : List String
  autoFixConfidence : ℚ
deriving DecidableEq, Repr

/-- Model of `AGENT_CONFIG.COMPLETION_THRESHOLD`. -/
def COMPLETION_THRESHOLD : ℚ := 95 / 100

/-- A behavior strategy (`BaseBehavior` capability surface used by
`processSession`): each capability takes the context and either returns
its result or throws. `implementProject` returns the chunks it pushes
through the streaming callback. -/
structure Behavior where
  generateBlueprint : GenerationContext → Except String String
  initializeProject : GenerationContext → Except String Unit
  implementProject : GenerationContext → Except String (List String)
  reviewProject : GenerationContext → Except String ReviewAnalysis
  prepareDeployment : GenerationContext → Except String Unit
  applyFixes : GenerationContext → List String → Except String Unit

/-- A behavior all of whose capabilities return without throwing,
computed by the given pure functions. -/
def mkOkBehavior (gb : GenerationContext → String)
    (impl : GenerationContext → List String)
    (rev : GenerationContext → ReviewAnalysis) : Behavior :=
  { generateBlueprint := fun c => Except.ok (gb c)
    initializeProject := fun _ => Except.ok ()
    implementProject := fun c => Except.ok (impl c)
    reviewProject := fun c => Except.ok (rev c)
    prepareDeployment := fun _ => Except.ok ()
    applyFixes := fun _ _ => Except.ok () }

/-- Model of `runPhase` from `AgentCore.ts`: set the context's phase and
PROCESSING status, emit `phase started`, run the body, then emit
`phase completed` or `phase failed` (re-throwing in the latter case).
The body returns the events it emitted (kept even on failure, since
emission precedes the throw) and its outcome. -/
def runPhase (s : AgentSession) (phase : AgentPhase)
    (body : AgentSession → List AgentEvent × Except String AgentSession) :
    List AgentEvent × Except (AgentSession × String) AgentSession :=
  let s1 := { s with context := { s.context with
    phase := phase, status := GenerationStatus.processing } }
  let bodyResult := body s1
  match bodyResult.2 with
  | .ok s2 =>
    (AgentEvent.phaseStarted phase :: bodyResult.1 ++ [AgentEvent.phaseCompleted phase], .ok s2)
  | .error e =>
    (AgentEvent.phaseStarted phase :: bodyResult.1 ++ [AgentEvent.phaseFailed phase e],
     .error (s1, e))

/-- Phase 1 body of `processSession`: generate the blueprint, store it
on the context and emit it. -/
def analysisBody (b : Behavior) (s : AgentSession) :
    List AgentEvent × Except String AgentSession :=
  match b.generateBlueprint s.context with
  | .ok bp =>
    ([AgentEvent.blueprintData bp],
     .ok { s with context := { s.context with blueprint := some bp } })
  | .error e => ([], .error e)

/-- Phase 2 body: project setup. -/
def setupBody (b : Behavior) (s : AgentSession) :
    List AgentEvent × Except String AgentSession :=
  match b.initializeProject s.context with
  | .ok _ => ([], .ok s)
  | .error e => ([], .error e)

/-- Phase 3 body: implementation, streaming each produced chunk through
`session.stream`. -/
def implementationBody (b : Behavior) (s : AgentSession) :
    List AgentEvent × Except String AgentSession :=
  match b.implementProject s.context with
  | .ok chunks => ((chunks.map fun c => (AgentSession.stream s c).2).flatten, .ok s)
  | .error e => ([], .error e)

/-- Model of `handlePostReview`: a clean review emits `passed`; otherwise the
issues are emitted and, when confidence clears the threshold, fixes are
applied (whose failure propagates after the review event). -/
def handlePostReview (b : Behavior) (ctx : GenerationContext) (analysis : ReviewAnalysis) :
    List AgentEvent × Except String Unit :=
  if analysis.issues = [] then ([AgentEvent.reviewPassed], .ok ())
  else
    let evs := [AgentEvent.reviewIssuesFound analysis.issues analysis.suggestions]
    if analysis.autoFixConfidence > COMPLETION_THRESHOLD then
      match b.applyFixes ctx analysis.issues with
      | .ok _ => (evs, .ok ())
      | .error e => (evs, .error e)
    else (evs, .ok ())

/-- Phase 4 body: review then post-review handling. -/
def reviewBody (b : Behavior) (s : AgentSession) :
    List AgentEvent × Except String AgentSession :=
  match b.reviewProject s.context with
  | .ok analysis =>
    let hpr := handlePostReview b s.context analysis
    (hpr.1, hpr.2.map fun _ => s)
  | .error e => ([], .error e)

/-- Phase 5 body: deployment preparation. -/
def deploymentBody (b : Behavior) (s : AgentSession) :
    List AgentEvent × Except String AgentSession :=
  match b.prepareDeployment s.context with
  | .ok _ => ([], .ok s)
  | .error e => ([], .error e)

/-- The failure path of a session: `processSession`'s catch block sets
FAILED and re-throws; the `initializeSession` caller's `.catch` then
invokes `session.fail`, emitting the error event. -/
def sessionFailure (s : AgentSession) (evs : List AgentEvent) (e : String) :
    AgentSession × List AgentEvent × Option String :=
  let sF := { s with context := { s.context with status := GenerationStatus.failed } }
  let failResult := AgentSession.fail sF e
  (failResult.1, evs ++ failResult.2, some e)

/-- Model of `processSession` from `AgentCore.ts`: drive the five phases in
order; on full success set COMPLETED and notify the session; on any
phase failure take the failure path. Returns the final session, all
emitted events in order, and the propagated error (if any). -/
def processSession (b : Behavior) (s : AgentSession) :
    AgentSession × List AgentEvent × Option String :=
  match runPhase s AgentPhase.analysis (analysisBody b) with
  | (evs1, .error (sf, e)) => sessionFailure sf evs1 e
  | (evs1, .ok s1) =>
    match runPhase s1 AgentPhase.setup (setupBody b) with
    | (evs2, .error (sf, e)) => sessionFailure sf (evs1 ++ evs2) e
    | (evs2, .ok s2) =>
      match runPhase s2 AgentPhase.implementation (implementationBody b) with
      | (evs3, .error (sf, e)) => sessionFailure sf (evs1 ++ evs2 ++ evs3) e
      | (evs3, .ok s3) =>
        match runPhase s3 AgentPhase.review (reviewBody b) with
        | (evs4, .error (sf, e)) => sessionFailure sf (evs1 ++ evs2 ++ evs3 ++ evs4) e
        | (evs4, .ok s4) =>
          match runPhase s4 AgentPhase.deployment (deploymentBody b) with
          | (evs5, .error (sf, e)) =>
            sessionFailure sf (evs1 ++ evs2 ++ evs3 ++ evs4 ++ evs5) e
          | (evs5, .ok s5) =>
            let s6 := { s5 with context :=
              { s5.context with status := GenerationStatus.completed } }
            let completion := AgentSession.complete s6
            (completion.1, evs1 ++ evs2 ++ evs3 ++ evs4 ++ evs5 ++ completion.2, none)

/-- Model of `ToolResult` from the core types. -/
structure ToolResult where
  success : Bool
  data : Option String
  error : Option String
  executionTime : Nat
deriving DecidableEq, Repr

/-- Model of `AgentCore.executeToolCall`: a hard error only for an unknown
session; otherwise every failure — unknown tool (the internal
`Unknown tool: <name>` throw), tool throw, or the timeout race — is
caught into a `success: false` result carrying the error's message.
`duration` abstracts the measured wall-clock time. -/
def executeToolCall (activeSessions : List (String × AgentSession))
    (toolkit : List ToolDefinition) (sessionId : String) (toolCall : ToolCall)
    (duration : Nat) : Except String ToolResult :=
  match activeSessions.lookup sessionId with
  | none => Except.error ("Session not found: " ++ sessionId)
  | some _ =>
    match toolkit.find? (fun t => t.name == toolCall.name) with
    | none =>
      Except.ok
        { success := false
          data := none
          error := some ("Unknown tool: " ++ toolCall.name)
          executionTime := duration }
    | some tool =>
      match tool.execute toolCall.parameters with
      | .ok result =>
        Except.ok
          { success := true
            data := some result
            error := none
            executionTime := duration }
      | .error e =>
        Except.ok
          { success := false
            data := none
            error := some e
            executionTime := duration }

/-- The orchestrator state `terminateSession` and `getSessionStatus`
act on: the live-session map, the emitter's delivered-event log, and
the persisted per-session status store (overwrite-by-key). -/
structure CoreState where
  activeSessions : List (String × AgentSession)
  emitterLog : List (String × AgentEvent)
  persisted : String → Option (GenerationStatus × Option String)

/-- Model of `AgentCore.terminateSession`: if the session is live, terminate it
(emitting the terminal event) and remove it from the live map; in all
cases persist TERMINATED with the reason. -/
def terminateSession (st : CoreState) (sessionId : String) (reason : Option String) :
    CoreState :=
  let st1 :=
    match st.activeSessions.lookup sessionId with
    | some s =>
      { st with
        activeSessions := st.activeSessions.filter (fun p => !(p.1 == sessionId)),
        emitterLog := st.emitterLog ++
          (AgentSession.terminate s reason).2.map (fun ev => (sessionId, ev)) }
    | none => st
  { st1 with persisted := fun k =>
      if k = sessionId then some (GenerationStatus.terminated, reason) else st1.persisted k }

/-- Result of `AgentCore.getSessionStatus`: a live snapshot, the
persisted record, or nothing. -/
inductive SessionStatusResult
  | live (s : SessionStatus)
  | stored (status : GenerationStatus) (reason : Option String)
  | missing
deriving DecidableEq, Repr

/-- Model of `AgentCore.getSessionStatus`: prefer the live session's snapshot,
else fall back to the persistent store. -/
def getSessionStatus (st : CoreState) (sessionId : String) : SessionStatusResult :=
  match st.activeSessions.lookup sessionId with
  | some s => SessionStatusResult.live s.getStatus
  | none =>
    match st.persisted sessionId with
    | some (g, r) => SessionStatusResult.stored g r
    | none => SessionStatusResult.missing

/-- Build state of `BaseCodingBehavior` relevant to `triggerBuild`: the
in-flight generation promise (by id), how many builds have been
started, and the next build id. -/
structure BehaviorBuildState where
  generationPromise : Option Nat
  buildsStarted : Nat
  nextBuildId : Nat
deriving DecidableEq, Repr

/-- Model of `isCodeGenerating` from `behaviors/agentic.ts`:
`generationPromise !== null`. -/
def isCodeGenerating (st : BehaviorBuildState) : Bool :=
  st.generationPromise.isSome

/-- Model of `triggerBuild` from `behaviors/agentic.ts`: the in-progress check
and the promise assignment happen in one synchronous step (the source
has no `await` between them), so the model treats the pair atomically:
an in-flight promise makes the call a no-op, otherwise a new build
starts and its promise is recorded. -/
def triggerBuild (st : BehaviorBuildState) : BehaviorBuildState :=
  if st.generationPromise.isSome then st
  else
    { generationPromise := some st.nextBuildId
      buildsStarted := st.buildsStarted + 1
      nextBuildId := st.nextBuildId + 1 }

/-- A concrete generation context used by witnesses. -/
def sampleContext : GenerationContext :=
  { sessionId := "s1"
    userId := "u1"
    projectId := "p1"
    status := GenerationStatus.processing
    mode := AgentMode.agentic
    phase := AgentPhase.analysis
    iteration := 0
    prompt := "build a todo app"
    blueprint := none
    fileStates := []
    conversationHistory := []
    metadata := { startedAt := 0, templateId := none } }

/-- A concrete live session used by witnesses. -/
def sampleSession : AgentSession :=
  { id := "s1", context := sampleContext, isTerminated := false }

/-- Projection of the phase lifecycle events out of an event trace. -/
def phaseEventTag : AgentEvent → Option (AgentPhase × String)
  | .phaseStarted p => some (p, "started")
  | .phaseCompleted p => some (p, "completed")
  | .phaseFailed p _ => some (p, "failed")
  | _ => none

/-- The phase-event trace of a fully successful run. -/
def successPhaseTrace : List (AgentPhase × String) :=
  [(AgentPhase.analysis, "started"), (AgentPhase.analysis, "completed"),
   (AgentPhase.setup, "started"), (AgentPhase.setup, "completed"),
   (AgentPhase.implementation, "started"), (AgentPhase.implementation, "completed"),
   (AgentPhase.review, "started"), (AgentPhase.review, "completed"),
   (AgentPhase.deployment, "started"), (AgentPhase.deployment, "completed")]

lemma truncGo_eq_take_append (maxTokens : Nat) :
    ∀ (rev : List Message) (tot : Nat) (res : List Message),
      ∃ j, truncGo maxTokens rev tot res = (rev.take j).reverse ++ res := by
  intro rev
  induction rev with
  | nil =>
    intro tot res
    exact ⟨0, rfl⟩
  | cons msg rest ih =>
    intro tot res
    by_cases h : tot + estimateTokens msg.content > maxTokens ∧ res.length > 0
    · refine ⟨0, ?_⟩
      simp [truncGo, h]
    · obtain ⟨j, hj⟩ := ih (tot + estimateTokens msg.content) (msg :: res)
      refine ⟨j + 1, ?_⟩
      simp only [truncGo, if_neg h, hj, List.take_succ_cons, List.reverse_cons,
        List.append_assoc, List.cons_append, List.nil_append]

lemma toolResultMessagesFrom_length (toolCalls : List ToolCall) :
    ∀ (results : List ToolOutcome) (start : Nat),
      (toolResultMessagesFrom toolCalls start results).length = results.length := by
  intro results
  induction results with
  | nil => intro start; rfl
  | cons r rs ih => intro start; simp [toolResultMessagesFrom, ih]

lemma toolResultMessagesFrom_get? (toolCalls : List ToolCall) :
    ∀ (results : List ToolOutcome) (start i : Nat),
      (toolResultMessagesFrom toolCalls start results).get? i =
        (results.get? i).map fun r =>
          { role := Role.tool
            content := renderOutcome r
            tool_calls := []
            tool_call_id := (toolCalls.get? (start + i)).map ToolCall.id } := by
  intro results
  induction results with
  | nil => intro start i; simp [toolResultMessagesFrom]
  | cons r rs ih =>
    intro start i
    cases i with
    | zero => simp [toolResultMessagesFrom]
    | succ n =>
      simp only [toolResultMessagesFrom, List.get?_cons_succ, ih (start + 1) n]
      have : start + 1 + n = start + (n + 1) := by omega
      rw [this]

/-- C1: in one iteration of `runInferenceWithTools`, a `tool_calls`
response appends the assistant message followed by exactly one
tool-result message per call of the batch (missing tools included), in
call order, the `i`-th carrying the `i`-th call's id as its
`tool_call_id`, all before the next model turn runs on the extended
history. -/
theorem runLoop_toolBatch_pairing
    (respond : List Message → StreamResponse) (tools : List ToolDefinition)
    (timeExceeded : Nat → Bool) (fuel iteration : Nat)
    (messages : List Message) (content : String) (toolCalls : List ToolCall)
    (htime : timeExceeded iteration = false)
    (hresp : respond messages = StreamResponse.tool_calls content toolCalls) :
    runLoop respond tools timeExceeded (fuel + 1) messages iteration =
      runLoop respond tools timeExceeded fuel
        (messages ++ [assistantToolCallMessage content toolCalls] ++
          toolResultMessages toolCalls (executeToolCalls toolCalls tools)) (iteration + 1) ∧
    (executeToolCalls toolCalls tools).length = toolCalls.length ∧
    (toolResultMessages toolCalls (executeToolCalls toolCalls tools)).length = toolCalls.length ∧
    (∀ i, i < toolCalls.length →
      ∃ m tc,
        (toolResultMessages toolCalls (executeToolCalls toolCalls tools)).get? i = some m ∧
        toolCalls.get? i = some tc ∧
        m.role = Role.tool ∧ m.tool_call_id = some tc.id) := by
  refine ⟨?_, ?_, ?_, ?_⟩
  · simp [runLoop, htime, hresp, nextMessages]
  · simp [executeToolCalls]
  · rw [toolResultMessages, toolResultMessagesFrom_length]
    simp [executeToolCalls]
  · intro i hi
    have htc : ∃ tc, toolCalls.get? i = some tc := by
      rw [List.get?_eq_get hi]; exact ⟨_, rfl⟩
    obtain ⟨tc, htc⟩ := htc
    obtain ⟨r, hr⟩ : ∃ r, (executeToolCalls toolCalls tools).get? i = some r := by
      rw [executeToolCalls, List.get?_eq_getElem?, List.getElem?_map,
        ← List.get?_eq_getElem?, htc]
      exact ⟨_, rfl⟩
    have hm := toolResultMessagesFrom_get? toolCalls (executeToolCalls toolCalls tools) 0 i
    rw [hr, Option.map_some'] at hm
    refine ⟨_, tc, hm, htc, rfl, ?_⟩
    show (toolCalls.get? (0 + i)).map ToolCall.id = some tc.id
    rw [Nat.zero_add, htc]
    rfl

/-- C2 helper: while every response is a tool-call batch and the clock
check never fires, the loop consumes all its fuel, performing one
iteration per unit of fuel, and exits with the iteration-exceeded
error. -/
lemma runLoop_always_toolCalls
    (respond : List Message → StreamResponse) (tools : List ToolDefinition)
    (timeExceeded : Nat → Bool)
    (hresp : ∀ m, ∃ c tcs, respond m = StreamResponse.tool_calls c tcs)
    (htime : ∀ n, timeExceeded n = false) :
    ∀ (fuel : Nat) (messages : List Message) (iteration : Nat),
      runLoop respond tools timeExceeded fuel messages iteration =
        (InferOutcome.failure
          ("Max tool iterations (" ++ toString MAX_TOOL_ITERATIONS ++ ") exceeded"),
         iteration + fuel) := by
  intro fuel
  induction fuel with
  | zero =>
    intro messages iteration
    simp [runLoop]
  | succ n ih =>
    intro messages iteration
    obtain ⟨c, tcs, h⟩ := hresp messages
    rw [runLoop, htime iteration]
    simp only [Bool.false_eq_true, if_false, h, ih]
    exact congrArg _ (by omega)

/-- C2: when every inference response carries tool calls and the
wall-clock budget is never exceeded, `runInferenceWithTools` performs
exactly 50 iterations (the `MAX_TOOL_ITERATIONS` ceiling) and then fails
with `Max tool iterations (50) exceeded`; no 51st iteration occurs. -/
theorem runInferenceWithTools_iteration_cap
    (respond : List Message → StreamResponse) (tools : List ToolDefinition)
    (timeExceeded : Nat → Bool) (messages : List Message)
    (hresp : ∀ m, ∃ c tcs, respond m = StreamResponse.tool_calls c tcs)
    (htime : ∀ n, timeExceeded n = false) :
    runInferenceWithTools respond tools timeExceeded messages =
      (InferOutcome.failure "Max tool iterations (50) exceeded", 50) ∧
    MAX_TOOL_ITERATIONS = 50 := by
  refine ⟨?_, rfl⟩
  rw [runInferenceWithTools, runLoop_always_toolCalls respond tools timeExceeded hresp htime]
  rfl

/-- Witness for C1: a two-call batch whose second tool is not among the
available tools. -/
theorem runLoop_toolBatch_pairing_witness :
    (fun (_ : Nat) => false) 0 = false ∧
    ((fun (_ : List Message) => StreamResponse.tool_calls "c"
        [ToolCall.mk "id1" "t1" "p1", ToolCall.mk "id2" "missing" "p2"]) [] =
      StreamResponse.tool_calls "c"
        [ToolCall.mk "id1" "t1" "p1", ToolCall.mk "id2" "missing" "p2"]) ∧
    (runLoop
        (fun _ => StreamResponse.tool_calls "c"
          [ToolCall.mk "id1" "t1" "p1", ToolCall.mk "id2" "missing" "p2"])
        [ToolDefinition.mk "t1" (fun _ => Except.ok "r1")] (fun _ => false) 1 [] 0 =
      runLoop
        (fun _ => StreamResponse.tool_calls "c"
          [ToolCall.mk "id1" "t1" "p1", ToolCall.mk "id2" "missing" "p2"])
        [ToolDefinition.mk "t1" (fun _ => Except.ok "r1")] (fun _ => false) 0
        ([] ++ [assistantToolCallMessage "c"
            [ToolCall.mk "id1" "t1" "p1", ToolCall.mk "id2" "missing" "p2"]] ++
          toolResultMessages
            [ToolCall.mk "id1" "t1" "p1", ToolCall.mk "id2" "missing" "p2"]
            (executeToolCalls
              [ToolCall.mk "id1" "t1" "p1", ToolCall.mk "id2" "missing" "p2"]
              [ToolDefinition.mk "t1" (fun _ => Except.ok "r1")])) 1 ∧
      (executeToolCalls
          [ToolCall.mk "id1" "t1" "p1", ToolCall.mk "id2" "missing" "p2"]
          [ToolDefinition.mk "t1" (fun _ => Except.ok "r1")]).length =
        ([ToolCall.mk "id1" "t1" "p1", ToolCall.mk "id2" "missing" "p2"] :
          List ToolCall).length ∧
      (toolResultMessages [ToolCall.mk "id1" "t1" "p1", ToolCall.mk "id2" "missing" "p2"]
          (executeToolCalls
            [ToolCall.mk "id1" "t1" "p1", ToolCall.mk "id2" "missing" "p2"]
            [ToolDefinition.mk "t1" (fun _ => Except.ok "r1")])).length =
        ([ToolCall.mk "id1" "t1" "p1", ToolCall.mk "id2" "missing" "p2"] :
          List ToolCall).length ∧
      (∀ i, i < ([ToolCall.mk "id1" "t1" "p1", ToolCall.mk "id2" "missing" "p2"] :
            List ToolCall).length →
        ∃ m tc,
          (toolResultMessages
              [ToolCall.mk "id1" "t1" "p1", ToolCall.mk "id2" "missing" "p2"]
              (executeToolCalls
                [ToolCall.mk "id1" "t1" "p1", ToolCall.mk "id2" "missing" "p2"]
                [ToolDefinition.mk "t1" (fun _ => Except.ok "r1")])).get? i = some m ∧
          ([ToolCall.mk "id1" "t1" "p1", ToolCall.mk "id2" "missing" "p2"] :
            List ToolCall).get? i = some tc ∧
          m.role = Role.tool ∧ m.tool_call_id = some tc.id)) :=
  ⟨rfl, rfl,
    runLoop_toolBatch_pairing
      (fun _ => StreamResponse.tool_calls "c"
        [ToolCall.mk "id1" "t1" "p1", ToolCall.mk "id2" "missing" "p2"])
      [ToolDefinition.mk "t1" (fun _ => Except.ok "r1")] (fun _ => false) 0 0 [] "c"
      [ToolCall.mk "id1" "t1" "p1", ToolCall.mk "id2" "missing" "p2"] rfl rfl⟩

/-- Witness for C2: a responder that always issues one tool call and a
clock that never expires. -/
theorem runInferenceWithTools_iteration_cap_witness :
    ((fun (_ : List Message) => StreamResponse.tool_calls "x" [ToolCall.mk "i" "t" "p"]) [] =
      StreamResponse.tool_calls "x" [ToolCall.mk "i" "t" "p"]) ∧
    (fun (_ : Nat) => false) 0 = false ∧
    (runInferenceWithTools
        (fun _ => StreamResponse.tool_calls "x" [ToolCall.mk "i" "t" "p"]) []
        (fun _ => false) [] =
      (InferOutcome.failure "Max tool iterations (50) exceeded", 50) ∧
      MAX_TOOL_ITERATIONS = 50) :=
  ⟨rfl, rfl,
    runInferenceWithTools_iteration_cap
      (fun _ => StreamResponse.tool_calls "x" [ToolCall.mk "i" "t" "p"]) []
      (fun _ => false) []
      (fun _ => ⟨"x", [ToolCall.mk "i" "t" "p"], rfl⟩) (fun _ => rfl)⟩

/-- C10: `truncateMessages` returns a contiguous suffix of the input
(the most recent messages in their original order), and on a non-empty
input the result is non-empty and still ends with the most recent
message, even when that message alone exceeds the token limit. -/
theorem truncateMessages_recent_suffix (messages : List Message) (maxTokens : Nat) :
    truncateMessages messages maxTokens <:+ messages ∧
    (messages ≠ [] →
      truncateMessages messages maxTokens ≠ [] ∧
      (truncateMessages messages maxTokens).getLast? = messages.getLast?) := by
  constructor
  · obtain ⟨j, hj⟩ := truncGo_eq_take_append maxTokens messages.reverse 0 []
    rw [truncateMessages, hj, List.append_nil]
    exact ⟨(messages.reverse.drop j).reverse, by
      rw [← List.reverse_append, List.take_append_drop, List.reverse_reverse]⟩
  · intro hne
    cases hrev : messages.reverse with
    | nil =>
      exact absurd (by simpa using congrArg List.reverse hrev) hne
    | cons m rest =>
      have h1 : truncateMessages messages maxTokens =
          truncGo maxTokens rest (0 + estimateTokens m.content) [m] := by
        rw [truncateMessages, hrev]
        simp [truncGo]
      obtain ⟨j, hj⟩ :=
        truncGo_eq_take_append maxTokens rest (0 + estimateTokens m.content) [m]
      have hlast : messages.getLast? = some m := by
        rw [List.getLast?_eq_head?_reverse, hrev]
        rfl
      constructor
      · rw [h1, hj]
        simp
      · rw [h1, hj, hlast]
        exact List.getLast?_concat _

/-- Witness for C10: a single message whose estimated token count alone
exceeds a zero token limit is still kept. -/
theorem truncateMessages_recent_suffix_witness :
    ([Message.mk Role.user "hello world, this is long" [] none] ≠ ([] : List Message)) ∧
    truncateMessages [Message.mk Role.user "hello world, this is long" [] none] 0 <:+
      [Message.mk Role.user "hello world, this is long" [] none] ∧
    truncateMessages [Message.mk Role.user "hello world, this is long" [] none] 0 ≠ [] ∧
    (truncateMessages [Message.mk Role.user "hello world, this is long" [] none] 0).getLast? =
      ([Message.mk Role.user "hello world, this is long" [] none]).getLast? :=
  ⟨by decide,
    (truncateMessages_recent_suffix _ 0).1,
    ((truncateMessages_recent_suffix _ 0).2 (by decide)).1,
    ((truncateMessages_recent_suffix _ 0).2 (by decide)).2⟩

lemma createStreamIterator_done
    (parseFrame : String → Option StreamChunk) (doneLine : String) (post : List String)
    (hdone1 : skipLine doneLine = false) (hdone2 : dataPayload doneLine = "[DONE]") :
    ∀ pre : List String,
      (∀ l ∈ pre, skipLine l = true ∨
        (dataPayload l ≠ "[DONE]" ∧ parseFrame (dataPayload l) = none)) →
      createStreamIterator parseFrame (pre ++ doneLine :: post) = [StreamChunk.complete] := by
  intro pre
  induction pre with
  | nil =>
    intro _
    simp [createStreamIterator, hdone1, hdone2]
  | cons l rest ih =>
    intro hpre
    have hl := hpre l (List.mem_cons_self l rest)
    have hrest := ih fun x hx => hpre x (List.mem_cons_of_mem l hx)
    rcases hl with hskip | ⟨hne, hnone⟩
    · simpa [createStreamIterator, hskip] using hrest
    · by_cases hskip : skipLine l = true
      · simpa [createStreamIterator, hskip] using hrest
      · simp only [List.cons_append, createStreamIterator, hskip, Bool.false_eq_true,
          if_false, hne, hnone]
        exact hrest

lemma runLoop_const_complete (content : String) (tools : List ToolDefinition)
    (timeExceeded : Nat → Bool) (messages : List Message) (iteration fuel : Nat)
    (htime : timeExceeded iteration = false) :
    runLoop (fun _ => StreamResponse.complete content) tools timeExceeded (fuel + 1)
      messages iteration = (InferOutcome.success content, iteration) := by
  simp [runLoop, htime]

/-- C7: a streamed response whose frames are all unrecognized, ended by
the `[DONE]` sentinel, normalizes to exactly one terminal completion
event and nothing after it; `streamInference` classifies it as a clean
completion with empty accumulated content and no tool calls, and the
enclosing tool-calling loop returns that empty completion (not an
error) after zero tool iterations. -/
theorem sentinel_empty_completion
    (parseFrame : String → Option StreamChunk) (pre post : List String)
    (doneLine signal : String) (tools : List ToolDefinition)
    (timeExceeded : Nat → Bool) (messages : List Message)
    (hdone1 : skipLine doneLine = false)
    (hdone2 : dataPayload doneLine = "[DONE]")
    (hpre : ∀ l ∈ pre, skipLine l = true ∨
      (dataPayload l ≠ "[DONE]" ∧ parseFrame (dataPayload l) = none))
    (htime : timeExceeded 0 = false) :
    createStreamIterator parseFrame (pre ++ doneLine :: post) = [StreamChunk.complete] ∧
    streamInference signal (createStreamIterator parseFrame (pre ++ doneLine :: post)) =
      StreamResponse.complete "" ∧
    runInferenceWithTools
        (fun _ => streamInference signal (createStreamIterator parseFrame (pre ++ doneLine :: post)))
        tools timeExceeded messages = (InferOutcome.success "", 0) := by
  have h1 := createStreamIterator_done parseFrame doneLine post hdone1 hdone2 pre hpre
  have h2 : streamInference signal (createStreamIterator parseFrame (pre ++ doneLine :: post)) =
      StreamResponse.complete "" := by
    rw [h1]
    rfl
  refine ⟨h1, h2, ?_⟩
  rw [runInferenceWithTools]
  simp only [h2]
  exact runLoop_const_complete "" tools timeExceeded messages 0 49 htime

/-- Witness for C7: two skipped lines and an unparseable frame, then the
sentinel, then a trailing frame that is never reached. -/
theorem sentinel_empty_completion_witness :
    (skipLine "data: [DONE]" = false ∧ dataPayload "data: [DONE]" = "[DONE]" ∧
      (∀ l ∈ ["", "event: ping", "data: ???"], skipLine l = true ∨
        (dataPayload l ≠ "[DONE]" ∧ (fun (_ : String) => (none : Option StreamChunk)) (dataPayload l) = none)) ∧
      (fun (_ : Nat) => false) 0 = false) ∧
    createStreamIterator (fun _ => none)
        (["", "event: ping", "data: ???"] ++ "data: [DONE]" :: ["data: after"]) =
      [StreamChunk.complete] ∧
    streamInference "TASK_DONE"
        (createStreamIterator (fun _ => none)
          (["", "event: ping", "data: ???"] ++ "data: [DONE]" :: ["data: after"])) =
      StreamResponse.complete "" ∧
    runInferenceWithTools
        (fun _ => streamInference "TASK_DONE"
          (createStreamIterator (fun _ => none)
            (["", "event: ping", "data: ???"] ++ "data: [DONE]" :: ["data: after"])))
        [] (fun _ => false) [] = (InferOutcome.success "", 0) :=
  ⟨⟨by decide, by decide, by decide, rfl⟩,
    sentinel_empty_completion (fun _ => none) ["", "event: ping", "data: ???"]
      ["data: after"] "data: [DONE]" "TASK_DONE" [] (fun _ => false) []
      (by decide) (by decide) (by decide) rfl⟩

lemma withRetryGo_ok (operation : Nat → Except String String) (maxRetries : Nat)
    (retryableErrors : List String) (attempt fuel : Nat) (lastError : Option String)
    (v : String) (h : operation attempt = Except.ok v) :
    withRetryGo operation maxRetries retryableErrors attempt (fuel + 1) lastError =
      (Except.ok v, 1) := by
  simp [withRetryGo, h]

lemma withRetryGo_rethrow (operation : Nat → Except String String) (maxRetries : Nat)
    (retryableErrors : List String) (attempt fuel : Nat) (lastError : Option String)
    (e : String) (h : operation attempt = Except.error e)
    (hcond : isRetryable retryableErrors e = false ∨ attempt = maxRetries - 1) :
    withRetryGo operation maxRetries retryableErrors attempt (fuel + 1) lastError =
      (Except.error e, 1) := by
  simp [withRetryGo, h, hcond]

lemma withRetryGo_retry_step (operation : Nat → Except String String) (maxRetries : Nat)
    (retryableErrors : List String) (attempt fuel : Nat) (lastError : Option String)
    (e : String) (h : operation attempt = Except.error e)
    (hr : isRetryable retryableErrors e = true) (hne : attempt ≠ maxRetries - 1) :
    withRetryGo operation maxRetries retryableErrors attempt (fuel + 1) lastError =
      ((withRetryGo operation maxRetries retryableErrors (attempt + 1) fuel (some e)).1,
       (withRetryGo operation maxRetries retryableErrors (attempt + 1) fuel (some e)).2 + 1) := by
  simp [withRetryGo, h, hr, hne]

/-- C6: with default options, an operation failing retryably on
attempts 0 and 1 and succeeding on attempt 2 yields the success value
after exactly 3 invocations; a non-retryable first failure propagates
that error after exactly 1 invocation; three retryable failures exhaust
the budget and propagate the last error after exactly 3 invocations. -/
theorem withRetry_classification :
    (∀ (operation : Nat → Except String String) (e0 e1 v : String),
      operation 0 = Except.error e0 → isRetryable defaultRetryableErrors e0 = true →
      operation 1 = Except.error e1 → isRetryable defaultRetryableErrors e1 = true →
      operation 2 = Except.ok v →
      withRetryDefault operation = (Except.ok v, 3)) ∧
    (∀ (operation : Nat → Except String String) (e : String),
      operation 0 = Except.error e → isRetryable defaultRetryableErrors e = false →
      withRetryDefault operation = (Except.error e, 1)) ∧
    (∀ (operation : Nat → Except String String) (e0 e1 e2 : String),
      operation 0 = Except.error e0 → isRetryable defaultRetryableErrors e0 = true →
      operation 1 = Except.error e1 → isRetryable defaultRetryableErrors e1 = true →
      operation 2 = Except.error e2 →
      withRetryDefault operation = (Except.error e2, 3)) := by
  refine ⟨?_, ?_, ?_⟩
  · intro operation e0 e1 v h0 hr0 h1 hr1 h2
    have s1 : withRetryGo operation 3 defaultRetryableErrors 0 3 none =
        ((withRetryGo operation 3 defaultRetryableErrors 1 2 (some e0)).1,
         (withRetryGo operation 3 defaultRetryableErrors 1 2 (some e0)).2 + 1) :=
      withRetryGo_retry_step operation 3 defaultRetryableErrors 0 2 none e0 h0 hr0 (by omega)
    have s2 : withRetryGo operation 3 defaultRetryableErrors 1 2 (some e0) =
        ((withRetryGo operation 3 defaultRetryableErrors 2 1 (some e1)).1,
         (withRetryGo operation 3 defaultRetryableErrors 2 1 (some e1)).2 + 1) :=
      withRetryGo_retry_step operation 3 defaultRetryableErrors 1 1 (some e0) e1 h1 hr1 (by omega)
    have s3 : withRetryGo operation 3 defaultRetryableErrors 2 1 (some e1) =
        (Except.ok v, 1) :=
      withRetryGo_ok operation 3 defaultRetryableErrors 2 0 (some e1) v h2
    show withRetryGo operation 3 defaultRetryableErrors 0 3 none = (Except.ok v, 3)
    rw [s1, s2, s3]
  · intro operation e h0 hr
    show withRetryGo operation 3 defaultRetryableErrors 0 3 none = (Except.error e, 1)
    exact withRetryGo_rethrow operation 3 defaultRetryableErrors 0 2 none e h0 (Or.inl hr)
  · intro operation e0 e1 e2 h0 hr0 h1 hr1 h2
    have s1 : withRetryGo operation 3 defaultRetryableErrors 0 3 none =
        ((withRetryGo operation 3 defaultRetryableErrors 1 2 (some e0)).1,
         (withRetryGo operation 3 defaultRetryableErrors 1 2 (some e0)).2 + 1) :=
      withRetryGo_retry_step operation 3 defaultRetryableErrors 0 2 none e0 h0 hr0 (by omega)
    have s2 : withRetryGo operation 3 defaultRetryableErrors 1 2 (some e0) =
        ((withRetryGo operation 3 defaultRetryableErrors 2 1 (some e1)).1,
         (withRetryGo operation 3 defaultRetryableErrors 2 1 (some e1)).2 + 1) :=
      withRetryGo_retry_step operation 3 defaultRetryableErrors 1 1 (some e0) e1 h1 hr1 (by omega)
    have s3 : withRetryGo operation 3 defaultRetryableErrors 2 1 (some e1) =
        (Except.error e2, 1) :=
      withRetryGo_rethrow operation 3 defaultRetryableErrors 2 0 (some e1) e2 h2 (Or.inr (by omega))
    show withRetryGo operation 3 defaultRetryableErrors 0 3 none = (Except.error e2, 3)
    rw [s1, s2, s3]

/-- Witness for C6: three concrete operations exercising the
fail-fail-succeed, non-retryable, and exhaustion paths. -/
theorem withRetry_classification_witness :
    ((fun n => if n = 0 then Except.error "timeout" else
        if n = 1 then Except.error "network_error" else Except.ok "recovered") 0 =
      (Except.error "timeout" : Except String String) ∧
     isRetryable defaultRetryableErrors "timeout" = true ∧
     isRetryable defaultRetryableErrors "network_error" = true ∧
     isRetryable defaultRetryableErrors "bad_request" = false) ∧
    withRetryDefault (fun n => if n = 0 then Except.error "timeout" else
        if n = 1 then Except.error "network_error" else Except.ok "recovered") =
      (Except.ok "recovered", 3) ∧
    withRetryDefault (fun _ => Except.error "bad_request") =
      (Except.error "bad_request", 1) ∧
    withRetryDefault (fun n => Except.error (if n = 0 then "timeout" else
        if n = 1 then "rate_limit" else "network_error")) =
      (Except.error "network_error", 3) :=
  ⟨⟨rfl, by decide, by decide, by decide⟩,
    withRetry_classification.1
      (fun n => if n = 0 then Except.error "timeout" else
        if n = 1 then Except.error "network_error" else Except.ok "recovered")
      "timeout" "network_error" "recovered" rfl (by decide) rfl (by decide) rfl,
    withRetry_classification.2.1 (fun _ => Except.error "bad_request") "bad_request"
      rfl (by decide),
    withRetry_classification.2.2
      (fun n => Except.error (if n = 0 then "timeout" else
        if n = 1 then "rate_limit" else "network_error"))
      "timeout" "rate_limit" "network_error" rfl (by decide) rfl (by decide) rfl⟩

/-- C3 counterexample: for a live session and an empty toolkit, the
captured error message is `Unknown tool: foo`, not the claimed
`Tool not found: foo`. -/
theorem executeToolCall_message_counterexample :
    executeToolCall [("s1", sampleSession)] [] "s1" (ToolCall.mk "c1" "foo" "ps") 5 =
      Except.ok
        { success := false
          data := none
          error := some "Unknown tool: foo"
          executionTime := 5 } ∧
    ("Unknown tool: foo" : String) ≠ "Tool not found: foo" := by
  exact ⟨rfl, by decide⟩

/-- C3 (amended): for a live session and a tool name not in the
toolkit, `executeToolCall` returns (does not throw) a failed
`ToolResult` whose error is `Unknown tool: <name>`; an unknown session
id is the one and only condition under which it throws. -/
theorem executeToolCall_unknown_tool
    (activeSessions : List (String × AgentSession)) (toolkit : List ToolDefinition)
    (sessionId : String) (toolCall : ToolCall) (duration : Nat)
    (hs : ∃ s, activeSessions.lookup sessionId = some s)
    (ht : toolkit.find? (fun t => t.name == toolCall.name) = none) :
    executeToolCall activeSessions toolkit sessionId toolCall duration =
      Except.ok
        { success := false
          data := none
          error := some ("Unknown tool: " ++ toolCall.name)
          executionTime := duration } ∧
    (∀ (as' : List (String × AgentSession)) (tk' : List ToolDefinition)
        (sid' : String) (tc' : ToolCall) (d' : Nat),
      (∃ e, executeToolCall as' tk' sid' tc' d' = Except.error e) ↔
        as'.lookup sid' = none) := by
  obtain ⟨s, hs⟩ := hs
  constructor
  · rw [executeToolCall, hs, ht]
  · intro as' tk' sid' tc' d'
    constructor
    · rintro ⟨e, he⟩
      cases h : as'.lookup sid' with
      | none => rfl
      | some s' =>
        simp only [executeToolCall, h] at he
        cases hf : tk'.find? (fun t => t.name == tc'.name) with
        | none =>
          simp only [hf] at he
          exact Except.noConfusion he
        | some tool =>
          simp only [hf] at he
          cases hx : tool.execute tc'.parameters with
          | ok r =>
            simp only [hx] at he
            exact Except.noConfusion he
          | error e2 =>
            simp only [hx] at he
            exact Except.noConfusion he
    · intro h
      exact ⟨"Session not found: " ++ sid', by rw [executeToolCall, h]⟩

/-- Witness for C3 at a concrete live session and empty toolkit. -/
theorem executeToolCall_unknown_tool_witness :
    (∃ s, ([("s1", sampleSession)] : List (String × AgentSession)).lookup "s1" = some s) ∧
    (([] : List ToolDefinition).find?
      (fun t => t.name == (ToolCall.mk "c1" "foo" "ps").name) = none) ∧
    (executeToolCall [("s1", sampleSession)] [] "s1" (ToolCall.mk "c1" "foo" "ps") 7 =
      Except.ok
        { success := false
          data := none
          error := some ("Unknown tool: " ++ (ToolCall.mk "c1" "foo" "ps").name)
          executionTime := 7 } ∧
     (∀ (as' : List (String × AgentSession)) (tk' : List ToolDefinition)
         (sid' : String) (tc' : ToolCall) (d' : Nat),
       (∃ e, executeToolCall as' tk' sid' tc' d' = Except.error e) ↔
         as'.lookup sid' = none)) :=
  ⟨⟨sampleSession, rfl⟩, rfl,
    executeToolCall_unknown_tool [("s1", sampleSession)] [] "s1"
      (ToolCall.mk "c1" "foo" "ps") 7 ⟨sampleSession, rfl⟩ rfl⟩

/-- C5 counterexample: a terminated session still emits an error event
when `fail` is invoked, contradicting "stream, complete, and fail emit
nothing after termination". -/
theorem terminated_fail_emits_counterexample :
    (AgentSession.fail { sampleSession with isTerminated := true } "boom").2 =
      [AgentEvent.errorEvent "boom"] ∧
    (AgentSession.fail { sampleSession with isTerminated := true } "boom").2 ≠ [] := by
  exact ⟨rfl, by decide⟩

/-- C5 (amended): after termination, `stream` and `complete` emit
nothing and leave the session unchanged; `fail`, however, performs no
termination check and still emits its error event. -/
theorem terminated_session_emissions (s : AgentSession) (chunk e : String)
    (h : s.isTerminated = true) :
    AgentSession.stream s chunk = (s, []) ∧
    AgentSession.complete s = (s, []) ∧
    (AgentSession.fail s e).2 = [AgentEvent.errorEvent e] := by
  refine ⟨?_, ?_, rfl⟩ <;> simp [AgentSession.stream, AgentSession.complete, h]

/-- Witness for C5 (amended) at a concrete terminated session. -/
theorem terminated_session_emissions_witness :
    ({ sampleSession with isTerminated := true } : AgentSession).isTerminated = true ∧
    AgentSession.stream { sampleSession with isTerminated := true } "c" =
      ({ sampleSession with isTerminated := true }, []) ∧
    AgentSession.complete { sampleSession with isTerminated := true } =
      ({ sampleSession with isTerminated := true }, []) ∧
    (AgentSession.fail { sampleSession with isTerminated := true } "err").2 =
      [AgentEvent.errorEvent "err"] :=
  ⟨rfl,
    (terminated_session_emissions { sampleSession with isTerminated := true } "c" "err" rfl).1,
    (terminated_session_emissions { sampleSession with isTerminated := true } "c" "err" rfl).2.1,
    (terminated_session_emissions { sampleSession with isTerminated := true } "c" "err" rfl).2.2⟩

/-- C8: with a generation promise in flight, `triggerBuild` is a
no-op — no second build starts and the state is unchanged (the check
and set are a single synchronous step in the model, as in the source). -/
theorem triggerBuild_inflight_noop (st : BehaviorBuildState)
    (h : st.generationPromise ≠ none) :
    triggerBuild st = st ∧
    (triggerBuild st).buildsStarted = st.buildsStarted ∧
    isCodeGenerating st = true := by
  have hs : st.generationPromise.isSome = true := by
    cases hgen : st.generationPromise with
    | none => exact absurd hgen h
    | some v => rfl
  refine ⟨?_, ?_, hs⟩ <;> simp [triggerBuild, isCodeGenerating, hs]

/-- Witness for C8 at a concrete in-flight build state. -/
theorem triggerBuild_inflight_noop_witness :
    (BehaviorBuildState.mk (some 0) 1 1).generationPromise ≠ none ∧
    triggerBuild (BehaviorBuildState.mk (some 0) 1 1) = BehaviorBuildState.mk (some 0) 1 1 ∧
    (triggerBuild (BehaviorBuildState.mk (some 0) 1 1)).buildsStarted =
      (BehaviorBuildState.mk (some 0) 1 1).buildsStarted ∧
    isCodeGenerating (BehaviorBuildState.mk (some 0) 1 1) = true :=
  ⟨by decide,
    (triggerBuild_inflight_noop (BehaviorBuildState.mk (some 0) 1 1) (by decide)).1,
    (triggerBuild_inflight_noop (BehaviorBuildState.mk (some 0) 1 1) (by decide)).2.1,
    (triggerBuild_inflight_noop (BehaviorBuildState.mk (some 0) 1 1) (by decide)).2.2⟩

lemma lookup_filter_ne (l : List (String × AgentSession)) (sid : String) :
    (l.filter fun p => !(p.1 == sid)).lookup sid = none := by
  induction l with
  | nil => rfl
  | cons p rest ih =>
    obtain ⟨k, v⟩ := p
    cases hb : (k == sid) with
    | true => simpa [List.filter_cons, hb] using ih
    | false =>
      have hne : k ≠ sid := by simpa using hb
      have hne' : (sid == k) = false := by simpa using Ne.symm hne
      simpa [List.filter_cons, hb, List.lookup, hne'] using ih

/-- C9: `terminateSession` removes the session from the live map and
persists TERMINATED with the reason, and a second identical call
changes nothing: neither the live map, nor the emitted events, nor the
persisted record. -/
theorem terminateSession_idempotent (st : CoreState) (sessionId : String)
    (reason : Option String) :
    terminateSession (terminateSession st sessionId reason) sessionId reason =
      terminateSession st sessionId reason ∧
    (terminateSession st sessionId reason).activeSessions.lookup sessionId = none ∧
    (terminateSession st sessionId reason).persisted sessionId =
      some (GenerationStatus.terminated, reason) := by
  have hnone : (terminateSession st sessionId reason).activeSessions.lookup sessionId = none := by
    cases h : st.activeSessions.lookup sessionId with
    | some s =>
      simp only [terminateSession, h]
      exact lookup_filter_ne st.activeSessions sessionId
    | none =>
      simp [terminateSession, h]
  have hpers : (terminateSession st sessionId reason).persisted sessionId =
      some (GenerationStatus.terminated, reason) := by
    simp [terminateSession]
  have key : ∀ (x : CoreState), x.activeSessions.lookup sessionId = none →
      x.persisted sessionId = some (GenerationStatus.terminated, reason) →
      terminateSession x sessionId reason = x := by
    intro x hx hp
    have hfun : (fun k =>
        if k = sessionId then some (GenerationStatus.terminated, reason)
        else x.persisted k) = x.persisted := by
      funext k
      by_cases hk : k = sessionId
      · rw [if_pos hk, hk, hp]
      · rw [if_neg hk]
    simp only [terminateSession, hx, hfun]
  exact ⟨key _ hnone hpers, hnone, hpers⟩

lemma processSession_mkOk (gb : GenerationContext → String)
    (impl : GenerationContext → List String) (rev : GenerationContext → ReviewAnalysis)
    (s : AgentSession) (hterm : s.isTerminated = false) :
    ∃ evs,
      processSession (mkOkBehavior gb impl rev) s =
        ({ s with context := { s.context with
             phase := AgentPhase.deployment
             status := GenerationStatus.completed
             blueprint := some (gb { s.context with
               phase := AgentPhase.analysis
               status := GenerationStatus.processing }) } },
         evs, none) ∧
      evs.filterMap phaseEventTag = successPhaseTrace := by
  simp only [processSession, runPhase, analysisBody, setupBody, implementationBody,
    reviewBody, deploymentBody, handlePostReview, mkOkBehavior, AgentSession.complete,
    hterm]
  split_ifs <;>
    exact ⟨_, rfl, by
      simp [List.filterMap_append, phaseEventTag, AgentSession.stream,
        successPhaseTrace, hterm]⟩

lemma calculateProgress_deployment (s : AgentSession)
    (h : s.context.phase = AgentPhase.deployment) :
    s.calculateProgress = 9 / 10 := by
  rw [AgentSession.calculateProgress, h]
  have h1 : ((phasesList.take (phasesList.indexOf AgentPhase.deployment)).map
      phaseWeights).sum = 9 / 10 := by
    show ((phasesList.take 4).map phaseWeights).sum = 9 / 10
    simp [phasesList, phaseWeights]
    norm_num
  rw [h1]
  exact min_eq_right (by norm_num)

/-- C4: when all five phase bodies return without throwing, the session
runs the phases in order (its phase-event trace is exactly the
started/completed pairs for ANALYSIS through DEPLOYMENT), ends with
status COMPLETED and no propagated error, and a subsequent
`getSessionStatus` on the live session reports status COMPLETED with
progress 9/10 — the defined terminal progress value (the weights of the
four phases before DEPLOYMENT, capped at 0.99). -/
theorem processSession_completed_status
    (s : AgentSession) (gb : GenerationContext → String)
    (impl : GenerationContext → List String) (rev : GenerationContext → ReviewAnalysis)
    (hterm : s.isTerminated = false) :
    (processSession (mkOkBehavior gb impl rev) s).2.2 = none ∧
    (processSession (mkOkBehavior gb impl rev) s).1.context.status =
      GenerationStatus.completed ∧
    (processSession (mkOkBehavior gb impl rev) s).1.context.phase =
      AgentPhase.deployment ∧
    ((processSession (mkOkBehavior gb impl rev) s).2.1).filterMap phaseEventTag =
      successPhaseTrace ∧
    ((processSession (mkOkBehavior gb impl rev) s).1.getStatus).status =
      GenerationStatus.completed ∧
    ((processSession (mkOkBehavior gb impl rev) s).1.getStatus).progress = 9 / 10 ∧
    (∀ st : CoreState,
      st.activeSessions.lookup s.id =
        some (processSession (mkOkBehavior gb impl rev) s).1 →
      getSessionStatus st s.id =
        SessionStatusResult.live ((processSession (mkOkBehavior gb impl rev) s).1.getStatus)) := by
  obtain ⟨evs, heq, hfil⟩ := processSession_mkOk gb impl rev s hterm
  rw [heq]
  refine ⟨rfl, rfl, rfl, hfil, rfl, ?_, ?_⟩
  · exact calculateProgress_deployment _ rfl
  · intro st hlk
    simp [getSessionStatus, hlk]

/-- Witness for C4 at a concrete live session with concrete
non-throwing phase bodies. -/
theorem processSession_completed_status_witness :
    sampleSession.isTerminated = false ∧
    (processSession (mkOkBehavior (fun _ => "bp") (fun _ => ["chunk"])
        (fun _ => ReviewAnalysis.mk [] [] 0)) sampleSession).2.2 = none ∧
    (processSession (mkOkBehavior (fun _ => "bp") (fun _ => ["chunk"])
        (fun _ => ReviewAnalysis.mk [] [] 0)) sampleSession).1.context.status =
      GenerationStatus.completed ∧
    (processSession (mkOkBehavior (fun _ => "bp") (fun _ => ["chunk"])
        (fun _ => ReviewAnalysis.mk [] [] 0)) sampleSession).1.context.phase =
      AgentPhase.deployment ∧
    ((processSession (mkOkBehavior (fun _ => "bp") (fun _ => ["chunk"])
        (fun _ => ReviewAnalysis.mk [] [] 0)) sampleSession).2.1).filterMap phaseEventTag =
      successPhaseTrace ∧
    ((processSession (mkOkBehavior (fun _ => "bp") (fun _ => ["chunk"])
        (fun _ => ReviewAnalysis.mk [] [] 0)) sampleSession).1.getStatus).status =
      GenerationStatus.completed ∧
    ((processSession (mkOkBehavior (fun _ => "bp") (fun _ => ["chunk"])
        (fun _ => ReviewAnalysis.mk [] [] 0)) sampleSession).1.getStatus).progress = 9 / 10 ∧
    (∀ st : CoreState,
      st.activeSessions.lookup sampleSession.id =
        some (processSession (mkOkBehavior (fun _ => "bp") (fun _ => ["chunk"])
          (fun _ => ReviewAnalysis.mk [] [] 0)) sampleSession).1 →
      getSessionStatus st sampleSession.id =
        SessionStatusResult.live
          ((processSession (mkOkBehavior (fun _ => "bp") (fun _ => ["chunk"])
            (fun _ => ReviewAnalysis.mk [] [] 0)) sampleSession).1.getStatus)) :=
  ⟨rfl,
    (processSession_completed_status sampleSession (fun _ => "bp") (fun _ => ["chunk"])
      (fun _ => ReviewAnalysis.mk [] [] 0) rfl).1,
    (processSession_completed_status sampleSession (fun _ => "bp") (fun _ => ["chunk"])
      (fun _ => ReviewAnalysis.mk [] [] 0) rfl).2.1,
    (processSession_completed_status sampleSession (fun _ => "bp") (fun _ => ["chunk"])
      (fun _ => ReviewAnalysis.mk [] [] 0) rfl).2.2.1,
    (processSession_completed_status sampleSession (fun _ => "bp") (fun _ => ["chunk"])
      (fun _ => ReviewAnalysis.mk [] [] 0) rfl).2.2.2.1,
    (processSession_completed_status sampleSession (fun _ => "bp") (fun _ => ["chunk"])
      (fun _ => ReviewAnalysis.mk [] [] 0) rfl).2.2.2.2.1,
    (processSession_completed_status sampleSession (fun _ => "bp") (fun _ => ["chunk"])
      (fun _ => ReviewAnalysis.mk [] [] 0) rfl).2.2.2.2.2.1,
    (processSession_completed_status sampleSession (fun _ => "bp") (fun _ => ["chunk"])
      (fun _ => ReviewAnalysis.mk [] [] 0) rfl).2.2.2.2.2.2⟩

end Vibe
